import Mathlib

deriving instance DecidableEq for Except

/-!
Shallow embedding of `src/src/lightning_app/utilities/cli_helpers.py`
(repository Helias/lightning).

The module has three functions:

* `_format_input_env_variables(env_list)` — parses `NAME=value` strings into
  a dictionary;
* `_is_url(id)` — prefix test for `http://` / `https://`;
* `_retrieve_application_url_and_available_commands(app_id_or_name_or_url)`
  — the endpoint resolver (called `resolve` in the specification).

External collaborators (the HTTP client `requests`, the directory-service
client `LightningClient` / `_get_project`) are modelled as an explicit
environment `Env`: a function from URL to HTTP outcome, plus the list of
application instances the directory service would return.  The resolver is
embedded as a pure function from `Env` and the identifier to a result
together with the trace of outbound calls it performs (`Event`), so that
"performs exactly one GET" and "never consults the directory service" are
statable.
-/

namespace Lightning

/-- Outcome of one `requests.get(url)` call: either the connection fails
(`requests.exceptions.ConnectionError`) or a response arrives with a status
code and a body.  The body stands for `resp.json()`, kept opaque. -/
structure Response where
  status : Nat
  body : String
deriving DecidableEq, Repr

/-- Result of an HTTP GET as delivered by the environment. -/
inductive HttpResult where
  | connectionError
  | response (r : Response)
deriving DecidableEq, Repr

/-- The `status` field of a lightningapp instance; only its `url` is read. -/
structure AppStatus where
  url : String
deriving DecidableEq, Repr

/-- One application record returned by the directory service
(`lightningapp.id`, `lightningapp.name`, `lightningapp.status.url`). -/
structure LightningApp where
  id : String
  name : String
  status : AppStatus
deriving DecidableEq, Repr

/-- The external world the resolver interacts with: the response of every
URL, and the instance list the directory service returns for the caller's
project (`client.lightningapp_instance_service_list_lightningapp_instances`).
The client construction and `_get_project` live outside `src/` and are
collapsed into this read-only listing. -/
structure Env where
  http : String → HttpResult
  lightningapps : List LightningApp

/-- Outbound calls the resolver makes, in order: an HTTP GET to a URL, or
the directory-service list call. -/
inductive Event where
  | httpGet (url : String)
  | dirList
deriving DecidableEq, Repr

/-- The distinct raise sites of the resolver, by error class. -/
inductive ResolveError where
  /-- non-200 response: raise Exception(f"The server didn't process the
  request properly. Found \x7bresp.json()\x7d") -/
  | remoteProtocolError (body : String)
  /-- an uncaught `requests.exceptions.ConnectionError` -/
  | connectionError
  /-- raise Exception(f"Provide an application name, id or url with
  --app_id=X. Found \x7blightningapp_names\x7d") -/
  | inputError (names : List String)
  /-- raise Exception("The application is starting. Try in a few moments.") -/
  | notReadyError
deriving DecidableEq, Repr

/-- The value the resolver produces when it does not raise: either
`(url, resp.json())` or the final `None, None`. -/
abbrev ResolveResult := Except ResolveError (Option String × Option String)

/-- Modelled from the spec: `APP_SERVER_PORT` is imported from
`lightning_app.core.constants`, which is not under `src/`; the spec calls it
"a fixed, configured integer constant identifying the local application
server's listening port". -/
def APP_SERVER_PORT : Nat := 7501

/-- The fixed local base URL of step 2:
`f"http://localhost:\x7bAPP_SERVER_PORT\x7d"`. -/
def localUrl : String := "http://localhost:" ++ toString APP_SERVER_PORT

/-- Python `s.startswith(p)`, on the underlying character lists. -/
def startsWithChars (s p : String) : Bool := List.isPrefixOf p.data s.data

/-- Embedding of `_is_url`: the identifier is a string beginning with
`https://` or `http://`. -/
def _is_url : Option String → Bool
  | some s => startsWithChars s "https://" || startsWithChars s "http://"
  | none => false

/-- Python truthiness of an `Optional[str]`: `None` and the empty string
are falsy (`if app_id_or_name_or_url:`). -/
def pyTruthy : Option String → Bool
  | some s => !s.isEmpty
  | none => false

/-- The first instance of the list whose `id` or `name` equals the
identifier (the `for lightningapp in list_lightningapps.lightningapps`
scan; each match immediately raises or returns, so first match wins). -/
def findMatch (ident : String) : List LightningApp → Option LightningApp
  | [] => none
  | app :: rest =>
    if app.id = ident ∨ app.name = ident then some app else findMatch ident rest

/-- The body of the scan loop of step 3 (lines 89–96): on the first match,
raise `notReadyError` when `status.url` is empty, otherwise GET
`status.url + "/api/v1/commands"`; falling off the loop reaches the final
`return None, None`. -/
def scanApps (env : Env) (ident : String) : List LightningApp → ResolveResult × List Event
  | [] => (Except.ok (none, none), [])
  | app :: rest =>
    if app.id = ident ∨ app.name = ident then
      if app.status.url = "" then (Except.error ResolveError.notReadyError, [])
      else
        let target := app.status.url ++ "/api/v1/commands"
        match env.http target with
        | HttpResult.connectionError =>
            (Except.error ResolveError.connectionError, [Event.httpGet target])
        | HttpResult.response resp =>
            if resp.status = 200 then
              (Except.ok (some app.status.url, some resp.body), [Event.httpGet target])
            else
              (Except.error (ResolveError.remoteProtocolError resp.body), [Event.httpGet target])
    else scanApps env ident rest

/-- Step 3 of the resolver (lines 78–97): when the identifier is truthy or
the local attempt failed to connect, build the client, resolve the project
and list the instances (the `dirList` event), then either raise
`inputError` (identifier falsy) or scan the listing. -/
def remoteLookup (env : Env) (ident : Option String) (failed_locally : Bool) :
    ResolveResult × List Event :=
  if pyTruthy ident || failed_locally then
    let names := env.lightningapps.map (fun app => app.name)
    if !pyTruthy ident then
      (Except.error (ResolveError.inputError names), [Event.dirList])
    else
      let out := scanApps env (ident.getD "") env.lightningapps
      (out.1, Event.dirList :: out.2)
  else (Except.ok (none, none), [])

/-- Embedding of `_retrieve_application_url_and_available_commands`
(`resolve` in the specification), returning the result together with the
ordered trace of outbound calls. -/
def resolve (env : Env) (ident : Option String) : ResolveResult × List Event :=
  if _is_url ident then
    let url := ident.getD ""
    let target := url ++ "/api/v1/commands"
    match env.http target with
    | HttpResult.connectionError =>
        (Except.error ResolveError.connectionError, [Event.httpGet target])
    | HttpResult.response resp =>
        if resp.status = 200 then (Except.ok (some url, some resp.body), [Event.httpGet target])
        else (Except.error (ResolveError.remoteProtocolError resp.body), [Event.httpGet target])
  else
    match ident with
    | none =>
      let target := localUrl ++ "/api/v1/commands"
      match env.http target with
      | HttpResult.connectionError =>
        let out := remoteLookup env none true
        (out.1, Event.httpGet target :: out.2)
      | HttpResult.response resp =>
        if resp.status = 200 then
          (Except.ok (some localUrl, some resp.body), [Event.httpGet target])
        else
          (Except.error (ResolveError.remoteProtocolError resp.body), [Event.httpGet target])
    | some _ => remoteLookup env ident false

/-! ### `_format_input_env_variables` -/

/-- Errors raised by `_format_input_env_variables`, by raise site. -/
inductive EnvVarError where
  /-- raise Exception(f"Invalid format of environment variable ...") -/
  | invalidFormat (entry : String)
  /-- raise Exception(f"Environment variable '...' is duplicated. ...") -/
  | duplicated (name : String)
  /-- raise ValueError(f"Environment variable '...' is not a valid name. ...") -/
  | invalidName (name : String)
deriving DecidableEq, Repr

/-- Python `s.split("=")` on the character list: always returns at least one
group, `""` splits to `[""]`, separators at the ends yield empty groups. -/
def splitCharsOnEq : List Char → List (List Char)
  | [] => [[]]
  | c :: rest =>
    let r := splitCharsOnEq rest
    if c = '=' then [] :: r
    else
      match r with
      | [] => [[c]]
      | g :: gs => (c :: g) :: gs

/-- `env_str.split("=")` as strings. -/
def varParts (e : String) : List String := (splitCharsOnEq e.data).map (fun cs => String.mk cs)

/-- A character of the class `[0-9a-zA-Z_]`. -/
def isClassChar (c : Char) : Bool :=
  ('0' ≤ c && c ≤ '9') || ('a' ≤ c && c ≤ 'z') || ('A' ≤ c && c ≤ 'Z') || c = '_'

/-- Truthiness of `re.match(r"[0-9a-zA-Z_]+", s)`: the greedy run of class
characters anchored at the start of `s` is non-empty. -/
def reMatchClassPlus (s : String) : Bool := !(s.data.takeWhile isClassChar).isEmpty

/-- The loop of `_format_input_env_variables` with `env_vars_dict` as the
accumulator (an insertion-ordered association list, as a Python dict is). -/
def formatLoop (acc : List (String × String)) : List String → Except EnvVarError (List (String × String))
  | [] => Except.ok acc
  | e :: rest =>
    match varParts e with
    | [n, v] =>
      if n = "" then Except.error (EnvVarError.invalidFormat e)
      else if n ∈ acc.map Prod.fst then Except.error (EnvVarError.duplicated n)
      else if !reMatchClassPlus n then Except.error (EnvVarError.invalidName n)
      else formatLoop (acc ++ [(n, v)]) rest
    | _ => Except.error (EnvVarError.invalidFormat e)

/-- Embedding of `_format_input_env_variables`. -/
def _format_input_env_variables (env_list : List String) :
    Except EnvVarError (List (String × String)) :=
  formatLoop [] env_list

/-- An `Except` value that is an `error`. -/
def isErr {ε α : Type} : Except ε α → Bool
  | Except.error _ => true
  | Except.ok _ => false

/-! ### Helper lemmas about the resolver -/

/-- A non-empty identifier string is Python-truthy. -/
theorem pyTruthy_some_of_ne (s : String) (h : s ≠ "") : pyTruthy (some s) = true := by
  have hne : s.isEmpty = false := by
    cases hb : s.isEmpty with
    | false => rfl
    | true => exact absurd ((String.isEmpty_iff s).1 hb) h
  simp [pyTruthy, hne]

/-- The scan loop never performs a directory-service call. -/
theorem scanApps_no_dirList (env : Env) (ident : String) (l : List LightningApp) :
    Event.dirList ∉ (scanApps env ident l).2 := by
  induction l with
  | nil => simp [scanApps]
  | cons app rest ih =>
    by_cases hm : app.id = ident ∨ app.name = ident
    · by_cases hu : app.status.url = ""
      · simp [scanApps, hm, hu]
      · cases hh : env.http (app.status.url ++ "/api/v1/commands") with
        | connectionError => simp [scanApps, hm, hu, hh]
        | response resp =>
          by_cases hs : resp.status = 200 <;> simp [scanApps, hm, hu, hh, hs]
    · simpa [scanApps, hm] using ih

/-- When no instance matches, the scan loop falls through silently. -/
theorem scanApps_findMatch_none (env : Env) (ident : String) (l : List LightningApp)
    (h : findMatch ident l = none) : scanApps env ident l = (Except.ok (none, none), []) := by
  induction l with
  | nil => simp [scanApps]
  | cons app rest ih =>
    by_cases hm : app.id = ident ∨ app.name = ident
    · simp [findMatch, hm] at h
    · simp only [findMatch, if_neg hm] at h
      simpa [scanApps, hm] using ih h

/-- When the first match has an empty `status.url`, the scan raises
`notReadyError` without any HTTP call. -/
theorem scanApps_findMatch_notReady (env : Env) (ident : String) (l : List LightningApp)
    (app : LightningApp) (h : findMatch ident l = some app) (hurl : app.status.url = "") :
    scanApps env ident l = (Except.error ResolveError.notReadyError, []) := by
  induction l with
  | nil => simp [findMatch] at h
  | cons a rest ih =>
    by_cases hm : a.id = ident ∨ a.name = ident
    · simp only [findMatch, if_pos hm, Option.some.injEq] at h
      subst h
      simp [scanApps, hm, hurl]
    · simp only [findMatch, if_neg hm] at h
      simpa [scanApps, hm] using ih h

/-- When the first match has a URL and that URL answers 200, the scan
returns the pair and performs exactly that one GET. -/
theorem scanApps_findMatch_ok (env : Env) (ident : String) (l : List LightningApp)
    (app : LightningApp) (resp : Response) (h : findMatch ident l = some app)
    (hurl : app.status.url ≠ "")
    (hh : env.http (app.status.url ++ "/api/v1/commands") = HttpResult.response resp)
    (hs : resp.status = 200) :
    scanApps env ident l = (Except.ok (some app.status.url, some resp.body),
      [Event.httpGet (app.status.url ++ "/api/v1/commands")]) := by
  induction l with
  | nil => simp [findMatch] at h
  | cons a rest ih =>
    by_cases hm : a.id = ident ∨ a.name = ident
    · simp only [findMatch, if_pos hm, Option.some.injEq] at h
      subst h
      simp [scanApps, hm, hurl, hh, hs]
    · simp only [findMatch, if_neg hm] at h
      simpa [scanApps, hm] using ih h

/-- A non-URL, non-absent identifier goes straight to the remote lookup
with `failed_locally = False`. -/
theorem resolve_some_nonurl (env : Env) (s : String) (hnu : _is_url (some s) = false) :
    resolve env (some s) = remoteLookup env (some s) false := by
  simp [resolve, hnu]

/-- For a truthy identifier the remote lookup is the directory list call
followed by the scan of the listing. -/
theorem remoteLookup_truthy (env : Env) (s : String) (h : s ≠ "") (fl : Bool) :
    remoteLookup env (some s) fl =
      ((scanApps env s env.lightningapps).1,
       Event.dirList :: (scanApps env s env.lightningapps).2) := by
  have ht := pyTruthy_some_of_ne s h
  simp [remoteLookup, ht]

/-- If an instance list contains no instance with the given id or name,
the scan finds no match. -/
theorem findMatch_eq_none (ident : String) (l : List LightningApp)
    (h : ∀ app ∈ l, app.id ≠ ident ∧ app.name ≠ ident) : findMatch ident l = none := by
  induction l with
  | nil => rfl
  | cons a rest ih =>
    have ha := h a (List.mem_cons_self a rest)
    have hm : ¬(a.id = ident ∨ a.name = ident) := by
      rintro (h1 | h2)
      exacts [ha.1 h1, ha.2 h2]
    simp only [findMatch, if_neg hm]
    exact ih fun app hmem => h app (List.mem_cons_of_mem a hmem)

/-! ### C1 -/

/-- C1: for an identifier beginning with `http://` or `https://`, `resolve`
performs exactly one GET, to the identifier plus `/api/v1/commands`, and no
directory-service call; when the response has status 200 it returns the
pair `(identifier, body)`, and when the status is not 200 it raises the
`RemoteProtocolError`-class error carrying the response body. -/
theorem resolve_direct_url (env : Env) (s : String)
    (h : startsWithChars s "http://" = true ∨ startsWithChars s "https://" = true) :
    (resolve env (some s)).2 = [Event.httpGet (s ++ "/api/v1/commands")] ∧
    ∀ resp : Response, env.http (s ++ "/api/v1/commands") = HttpResult.response resp →
      (resp.status = 200 → (resolve env (some s)).1 = Except.ok (some s, some resp.body)) ∧
      (resp.status ≠ 200 →
        (resolve env (some s)).1 = Except.error (ResolveError.remoteProtocolError resp.body)) := by
  have hu : _is_url (some s) = true := by
    rcases h with h | h <;> simp [_is_url, h]
  refine ⟨?_, ?_⟩
  · cases hh : env.http (s ++ "/api/v1/commands") with
    | connectionError => simp [resolve, hu, hh]
    | response resp => by_cases hs : resp.status = 200 <;> simp [resolve, hu, hh, hs]
  · intro resp hresp
    constructor
    · intro h200
      simp [resolve, hu, hresp, h200]
    · intro h200
      simp [resolve, hu, hresp, h200]

/-- An environment whose only successful endpoint is `http://h`. -/
def urlEnv : Env :=
  { http := fun u =>
      if u = "http://h/api/v1/commands" then HttpResult.response { status := 200, body := "man" }
      else HttpResult.response { status := 500, body := "boom" },
    lightningapps := [] }

/-- Witness for C1 at the concrete identifier `http://h`. -/
theorem resolve_direct_url_witness :
    (resolve urlEnv (some "http://h")).2 = [Event.httpGet "http://h/api/v1/commands"] ∧
    (resolve urlEnv (some "http://h")).1 = Except.ok (some "http://h", some "man") := by
  have h := resolve_direct_url urlEnv "http://h" (Or.inl (by decide))
  exact ⟨h.1.trans (by decide),
    ((h.2 { status := 200, body := "man" } (by decide)).1 rfl).trans (by decide)⟩

/-! ### C5 -/

/-- C5: with an absent identifier and a local endpoint answering 200,
`resolve` returns the local url and the body, with exactly one GET to the
local endpoint and no directory-service call. -/
theorem resolve_local_success (env : Env) (resp : Response)
    (h : env.http (localUrl ++ "/api/v1/commands") = HttpResult.response resp)
    (h200 : resp.status = 200) :
    resolve env none = (Except.ok (some localUrl, some resp.body),
      [Event.httpGet (localUrl ++ "/api/v1/commands")]) := by
  simp [resolve, _is_url, h, h200]

/-- An environment whose local endpoint answers 200. -/
def localOkEnv : Env :=
  { http := fun u =>
      if u = "http://localhost:7501/api/v1/commands" then
        HttpResult.response { status := 200, body := "local" }
      else HttpResult.connectionError,
    lightningapps := [] }

/-- Witness for C5 at a concrete environment. -/
theorem resolve_local_success_witness :
    resolve localOkEnv none = (Except.ok (some localUrl, some "local"),
      [Event.httpGet (localUrl ++ "/api/v1/commands")]) :=
  resolve_local_success localOkEnv { status := 200, body := "local" } (by decide) rfl

/-! ### C6 -/

/-- C6: with an absent identifier and a local endpoint that fails to
connect, `resolve` raises `InputError` listing all instance names of the
directory listing; for an empty listing the listed names are `[]`. -/
theorem resolve_absent_unreachable (env : Env)
    (h : env.http (localUrl ++ "/api/v1/commands") = HttpResult.connectionError) :
    resolve env none =
      (Except.error (ResolveError.inputError (env.lightningapps.map (fun app => app.name))),
       [Event.httpGet (localUrl ++ "/api/v1/commands"), Event.dirList]) ∧
    (env.lightningapps = [] →
      (resolve env none).1 = Except.error (ResolveError.inputError [])) := by
  have hmain : resolve env none =
      (Except.error (ResolveError.inputError (env.lightningapps.map (fun app => app.name))),
       [Event.httpGet (localUrl ++ "/api/v1/commands"), Event.dirList]) := by
    simp [resolve, _is_url, h, remoteLookup, pyTruthy]
  exact ⟨hmain, fun he => by simp [hmain, he]⟩

/-- An environment with no reachable endpoint and an empty directory. -/
def localDownEnv : Env := { http := fun _ => HttpResult.connectionError, lightningapps := [] }

/-- Witness for C6: the empty directory listing yields `InputError []`. -/
theorem resolve_absent_unreachable_witness :
    (resolve localDownEnv none).1 = Except.error (ResolveError.inputError []) :=
  (resolve_absent_unreachable localDownEnv rfl).2 rfl

/-! ### C8 -/

/-- C8: `resolve` is deterministic — two environments that answer every
HTTP GET identically and return the same directory listing produce the
same result and the same trace for every identifier. -/
theorem resolve_deterministic (env₁ env₂ : Env) (ident : Option String)
    (hh : ∀ u, env₁.http u = env₂.http u)
    (hl : env₁.lightningapps = env₂.lightningapps) :
    resolve env₁ ident = resolve env₂ ident := by
  have henv : env₁ = env₂ := by
    cases env₁ with
    | mk f l =>
    cases env₂ with
    | mk g m =>
      have hf : f = g := funext hh
      have hl2 : l = m := hl
      rw [hf, hl2]
  rw [henv]

/-- A second spelling of the all-unreachable environment. -/
def localDownEnv2 : Env :=
  { http := fun u => if u = "p" then HttpResult.connectionError else HttpResult.connectionError,
    lightningapps := [] }

/-- Witness for C8: two pointwise-equal environments give equal outcomes. -/
theorem resolve_deterministic_witness :
    resolve localDownEnv (some "app") = resolve localDownEnv2 (some "app") :=
  resolve_deterministic localDownEnv localDownEnv2 (some "app")
    (fun u => by by_cases h : u = "p" <;> simp [localDownEnv, localDownEnv2, h]) rfl

/-! ### C2 -/

/-- C2: in the remote lookup the first instance of the listing whose id or
name equals the identifier decides the outcome — `NotReadyError` when its
`status.url` is empty, otherwise the GET to that url and, on a 200
response, the pair `(matched url, body)`. -/
theorem resolve_remote_match (env : Env) (s : String)
    (hnu : _is_url (some s) = false) (hne : s ≠ "") :
    (∀ app : LightningApp, findMatch s env.lightningapps = some app → app.status.url = "" →
       resolve env (some s) = (Except.error ResolveError.notReadyError, [Event.dirList])) ∧
    (∀ (app : LightningApp) (resp : Response),
       findMatch s env.lightningapps = some app → app.status.url ≠ "" →
       env.http (app.status.url ++ "/api/v1/commands") = HttpResult.response resp →
       resp.status = 200 →
       resolve env (some s) = (Except.ok (some app.status.url, some resp.body),
         [Event.dirList, Event.httpGet (app.status.url ++ "/api/v1/commands")])) := by
  constructor
  · intro app hfind hurl
    rw [resolve_some_nonurl env s hnu, remoteLookup_truthy env s hne false,
        scanApps_findMatch_notReady env s env.lightningapps app hfind hurl]
  · intro app resp hfind hurl hh hs
    rw [resolve_some_nonurl env s hnu, remoteLookup_truthy env s hne false,
        scanApps_findMatch_ok env s env.lightningapps app resp hfind hurl hh hs]

/-- The two-instance listing of the specification's example. -/
def exampleApps : List LightningApp :=
  [ { id := "a", name := "foo", status := { url := "" } },
    { id := "b", name := "bar", status := { url := "http://x" } } ]

/-- The example environment: the listing above, and `http://x` serving the
manifest. -/
def exampleEnv : Env :=
  { http := fun u =>
      if u = "http://x/api/v1/commands" then
        HttpResult.response { status := 200, body := "manifest" }
      else HttpResult.connectionError,
    lightningapps := exampleApps }

/-- Witness for C2, on the specification's example listing:
`resolve "bar"` returns `("http://x", manifest)` and `resolve "a"` fails
with `NotReadyError`. -/
theorem resolve_remote_match_witness :
    (resolve exampleEnv (some "bar")).1 = Except.ok (some "http://x", some "manifest") ∧
    (resolve exampleEnv (some "a")).1 = Except.error ResolveError.notReadyError := by
  have h2 := (resolve_remote_match exampleEnv "bar" (by decide) (by decide)).2
    { id := "b", name := "bar", status := { url := "http://x" } }
    { status := 200, body := "manifest" } (by decide) (by decide) (by decide) rfl
  have h1 := (resolve_remote_match exampleEnv "a" (by decide) (by decide)).1
    { id := "a", name := "foo", status := { url := "" } } (by decide) rfl
  exact ⟨by rw [h2], by rw [h1]⟩

/-! ### C3 -/

/-- An environment used to exercise the empty-string identifier. -/
def envC3 : Env :=
  { http := fun _ => HttpResult.connectionError,
    lightningapps := [ { id := "a", name := "foo", status := { url := "" } } ] }

/-- C3 counterexample: the empty string is a non-absent identifier that
does not begin with `http://` or `https://`, yet `resolve` performs no
directory-service call at all (the trace is empty): Python truthiness of
the identifier, not mere presence, gates the remote lookup. -/
theorem resolve_empty_ident_no_remote :
    _is_url (some "") = false ∧
    resolve envC3 (some "") = (Except.ok (none, none), []) ∧
    Event.dirList ∉ (resolve envC3 (some "")).2 := by
  refine ⟨by decide, by decide, by decide⟩

/-- C3 amended: for every identifier that is non-absent, non-empty and not
URL-prefixed, `resolve` triggers the remote lookup, issuing exactly one
directory-service list call, whatever the identifier's content. -/
theorem resolve_nonempty_ident_triggers_remote (env : Env) (s : String)
    (hne : s ≠ "") (hnu : _is_url (some s) = false) :
    List.count Event.dirList (resolve env (some s)).2 = 1 := by
  rw [resolve_some_nonurl env s hnu, remoteLookup_truthy env s hne false]
  have h0 : List.count Event.dirList (scanApps env s env.lightningapps).2 = 0 :=
    List.count_eq_zero.2 (scanApps_no_dirList env s env.lightningapps)
  simp [List.count_cons, h0]

/-- Witness for the amended C3 at the unmatched identifier `zzz`. -/
theorem resolve_nonempty_ident_triggers_remote_witness :
    List.count Event.dirList (resolve exampleEnv (some "zzz")).2 = 1 :=
  resolve_nonempty_ident_triggers_remote exampleEnv "zzz" (by decide) (by decide)

/-! ### C4 -/

/-- C4: with an absent identifier, a connection failure at the local
endpoint is not an error — `resolve` falls through to the remote lookup
and performs exactly one directory-service list call before failing —
whereas a reachable local endpoint answering a non-200 status raises the
`RemoteProtocolError`-class error with no directory-service call. -/
theorem resolve_local_failure_modes (env₁ env₂ : Env) (resp : Response)
    (h1 : env₁.http (localUrl ++ "/api/v1/commands") = HttpResult.connectionError)
    (h2 : env₂.http (localUrl ++ "/api/v1/commands") = HttpResult.response resp)
    (hs : resp.status ≠ 200) :
    resolve env₁ none =
      (Except.error (ResolveError.inputError (env₁.lightningapps.map (fun app => app.name))),
       [Event.httpGet (localUrl ++ "/api/v1/commands"), Event.dirList]) ∧
    resolve env₂ none =
      (Except.error (ResolveError.remoteProtocolError resp.body),
       [Event.httpGet (localUrl ++ "/api/v1/commands")]) := by
  constructor
  · simp [resolve, _is_url, h1, remoteLookup, pyTruthy]
  · simp [resolve, _is_url, h2, hs]

/-- An environment whose local endpoint answers 500. -/
def localErrEnv : Env :=
  { http := fun _ => HttpResult.response { status := 500, body := "oops" },
    lightningapps := [] }

/-- Witness for C4 at two concrete environments. -/
theorem resolve_local_failure_modes_witness :
    resolve localDownEnv none = (Except.error (ResolveError.inputError []),
      [Event.httpGet (localUrl ++ "/api/v1/commands"), Event.dirList]) ∧
    resolve localErrEnv none = (Except.error (ResolveError.remoteProtocolError "oops"),
      [Event.httpGet (localUrl ++ "/api/v1/commands")]) := by
  have h := resolve_local_failure_modes localDownEnv localErrEnv
    { status := 500, body := "oops" } rfl rfl (by decide)
  exact ⟨h.1.trans (by decide), h.2⟩

/-! ### C7 -/

/-- C7: a non-absent, non-URL identifier that matches no instance of the
directory listing (neither by id nor by name) yields the silent
`(absent, absent)` result, not an error. -/
theorem resolve_no_match_silent (env : Env) (s : String)
    (hnu : _is_url (some s) = false)
    (h : ∀ app ∈ env.lightningapps, app.id ≠ s ∧ app.name ≠ s) :
    (resolve env (some s)).1 = Except.ok (none, none) := by
  by_cases hne : s = ""
  · subst hne
    have ht : pyTruthy (some "") = false := by decide
    rw [resolve_some_nonurl env "" hnu]
    simp [remoteLookup, ht]
  · rw [resolve_some_nonurl env s hnu, remoteLookup_truthy env s hne false,
        scanApps_findMatch_none env s env.lightningapps
          (findMatch_eq_none s env.lightningapps h)]

/-- Witness for C7: `resolve "zzz"` on the example listing is silent. -/
theorem resolve_no_match_silent_witness :
    (resolve exampleEnv (some "zzz")).1 = Except.ok (none, none) :=
  resolve_no_match_silent exampleEnv "zzz" (by decide) (by decide)

/-! ### Vocabulary for the claims about `_format_input_env_variables` -/

/-- The name part of an entry: the first component of its `=`-split. -/
def entryName (e : String) : String := (varParts e).headD ""

/-- The value part of an entry: the second component of its `=`-split. -/
def entryValue (e : String) : String := (varParts e).getD 1 ""

/-- A well-formed entry in the claim's sense: the `=`-split has exactly two
parts and the name part is non-empty. -/
def wellFormedEntry (e : String) : Bool :=
  (varParts e).length == 2 && !(entryName e == "")

/-- Success characterization of the `_format_input_env_variables` loop:
starting from a duplicate-free accumulator, it returns a dictionary exactly
when every entry splits into two parts with a non-empty name whose leading
character run matches the name regex and no name repeats (nor collides with
the accumulator), and the dictionary appends the `(name, value)` pairs in
order. -/
theorem formatLoop_ok_iff (l : List String) : ∀ (acc r : List (String × String)),
    (acc.map Prod.fst).Nodup →
    (formatLoop acc l = Except.ok r ↔
      ((∀ e ∈ l, wellFormedEntry e = true ∧ reMatchClassPlus (entryName e) = true) ∧
       (acc.map Prod.fst ++ l.map entryName).Nodup ∧
       r = acc ++ l.map (fun e => (entryName e, entryValue e)))) := by
  induction l with
  | nil =>
    intro acc r hacc
    constructor
    · intro h
      have hr : acc = r := by simpa [formatLoop] using h
      subst hr
      exact ⟨by simp, by simpa using hacc, by simp⟩
    · rintro ⟨-, -, hr⟩
      simp [formatLoop, hr]
  | cons e rest ih =>
    intro acc r hacc
    rcases hv : varParts e with _ | ⟨n, _ | ⟨v, _ | ⟨w, t⟩⟩⟩
    · constructor
      · intro h
        simp [formatLoop, hv] at h
      · rintro ⟨hall, -, -⟩
        have hwf := (hall e (List.mem_cons_self e rest)).1
        simp [wellFormedEntry, hv] at hwf
    · constructor
      · intro h
        simp [formatLoop, hv] at h
      · rintro ⟨hall, -, -⟩
        have hwf := (hall e (List.mem_cons_self e rest)).1
        simp [wellFormedEntry, hv] at hwf
    · have hen : entryName e = n := by simp [entryName, hv]
      have hev : entryValue e = v := by simp [entryValue, hv]
      by_cases hn : n = ""
      · constructor
        · intro h
          simp [formatLoop, hv, hn] at h
        · rintro ⟨hall, -, -⟩
          have hwf := (hall e (List.mem_cons_self e rest)).1
          simp [wellFormedEntry, entryName, hv, hn] at hwf
      · by_cases hdup : n ∈ acc.map Prod.fst
        · constructor
          · intro h
            simp [formatLoop, hv, hn, hdup] at h
          · rintro ⟨-, hnd, -⟩
            rw [List.map_cons, hen] at hnd
            exact (List.disjoint_of_nodup_append hnd hdup (List.mem_cons_self n _)).elim
        · by_cases hre : reMatchClassPlus n = true
          · have hacc2 : ((acc ++ [(n, v)]).map Prod.fst).Nodup := by
              simp [List.nodup_append, hacc, hdup]
            have hstep : formatLoop acc (e :: rest) = formatLoop (acc ++ [(n, v)]) rest := by
              simp [formatLoop, hv, hn, hdup, hre]
            have hlist : (acc ++ [(n, v)]).map Prod.fst ++ rest.map entryName
                = acc.map Prod.fst ++ n :: rest.map entryName := by simp
            rw [hstep, ih (acc ++ [(n, v)]) r hacc2]
            constructor
            · rintro ⟨hall, hnd, hr⟩
              refine ⟨?_, ?_, ?_⟩
              · intro x hx
                rcases List.mem_cons.1 hx with hx | hx
                · subst hx
                  refine ⟨by simp [wellFormedEntry, entryName, hv, hn], ?_⟩
                  rw [hen]
                  exact hre
                · exact hall x hx
              · rw [List.map_cons, hen, ← hlist]
                exact hnd
              · rw [hr, List.map_cons, hen, hev]
                simp
            · rintro ⟨hall, hnd, hr⟩
              refine ⟨fun x hx => hall x (List.mem_cons_of_mem e hx), ?_, ?_⟩
              · rw [hlist]
                rw [List.map_cons, hen] at hnd
                exact hnd
              · rw [hr, List.map_cons, hen, hev]
                simp
          · have hre2 : reMatchClassPlus n = false := by
              cases hb : reMatchClassPlus n with
              | false => rfl
              | true => exact absurd hb hre
            constructor
            · intro h
              simp [formatLoop, hv, hn, hdup, hre2] at h
            · rintro ⟨hall, -, -⟩
              have hvalid := (hall e (List.mem_cons_self e rest)).2
              rw [hen, hre2] at hvalid
              exact Bool.noConfusion hvalid
    · constructor
      · intro h
        simp [formatLoop, hv] at h
      · rintro ⟨hall, -, -⟩
        have hwf := (hall e (List.mem_cons_self e rest)).1
        simp [wellFormedEntry, hv] at hwf

/-- The name regex matches exactly when the first character is in the
class: `[0-9a-zA-Z_]+` anchored at the start needs one leading class
character. -/
theorem reMatchClassPlus_cons (c : Char) (cs : List Char) (n : String)
    (hn : n.data = c :: cs) : reMatchClassPlus n = isClassChar c := by
  simp only [reMatchClassPlus]
  rw [hn]
  cases hc : isClassChar c <;> simp [List.takeWhile_cons, hc]

/-- The loop raises the invalid-name error only for a name rejected by the
regex check. -/
theorem formatLoop_invalidName (l : List String) : ∀ (acc : List (String × String)) (n : String),
    formatLoop acc l = Except.error (EnvVarError.invalidName n) → reMatchClassPlus n = false := by
  induction l with
  | nil =>
    intro acc n h
    simp [formatLoop] at h
  | cons e rest ih =>
    intro acc n h
    rcases hv : varParts e with _ | ⟨m, _ | ⟨v, _ | ⟨w, t⟩⟩⟩
    · simp [formatLoop, hv] at h
    · simp [formatLoop, hv] at h
    · by_cases hm : m = ""
      · simp [formatLoop, hv, hm] at h
      · by_cases hdup : m ∈ acc.map Prod.fst
        · simp [formatLoop, hv, hm, hdup] at h
        · by_cases hre : reMatchClassPlus m = true
          · have hstep : formatLoop acc (e :: rest) = formatLoop (acc ++ [(m, v)]) rest := by
              simp [formatLoop, hv, hm, hdup, hre]
            rw [hstep] at h
            exact ih (acc ++ [(m, v)]) n h
          · have hre2 : reMatchClassPlus m = false := by
              cases hb : reMatchClassPlus m with
              | false => rfl
              | true => exact absurd hb hre
            have hmn : m = n := by
              simpa [formatLoop, hv, hm, hdup, hre2] using h
            rw [← hmn]
            exact hre2
    · simp [formatLoop, hv] at h

/-! ### C9 -/

/-- C9 counterexample: the entry `-a=1` is well-formed in the claim's sense
(two `=`-parts, non-empty name) and duplicate-free, yet the function raises
the invalid-name `ValueError` instead of returning the dictionary. -/
theorem format_env_wellformed_rejected :
    wellFormedEntry "-a=1" = true ∧
    (List.map entryName ["-a=1"]).Nodup ∧
    _format_input_env_variables ["-a=1"] = Except.error (EnvVarError.invalidName "-a") := by
  refine ⟨by decide, by decide, by decide⟩

/-- C9 amended: an entry whose `=`-split is not exactly two parts or whose
name is empty forces an error, as does a repeated name; and every list of
well-formed, duplicate-free entries whose names also pass the leading
character-class check returns the dictionary mapping each name to its
value. -/
theorem format_env_correct (l : List String) :
    ((∃ e ∈ l, wellFormedEntry e = false) → isErr (_format_input_env_variables l) = true) ∧
    (¬ (l.map entryName).Nodup → isErr (_format_input_env_variables l) = true) ∧
    ((∀ e ∈ l, wellFormedEntry e = true ∧ reMatchClassPlus (entryName e) = true) →
     (l.map entryName).Nodup →
     _format_input_env_variables l =
       Except.ok (l.map (fun e => (entryName e, entryValue e)))) := by
  refine ⟨?_, ?_, ?_⟩
  · rintro ⟨e, he, hbad⟩
    cases hres : _format_input_env_variables l with
    | error err => simp [isErr]
    | ok r =>
      exfalso
      have hch := (formatLoop_ok_iff l [] r (by simp)).1 hres
      have hwf := (hch.1 e he).1
      rw [hbad] at hwf
      exact Bool.noConfusion hwf
  · intro hnd
    cases hres : _format_input_env_variables l with
    | error err => simp [isErr]
    | ok r =>
      exfalso
      have hch := (formatLoop_ok_iff l [] r (by simp)).1 hres
      exact hnd (by simpa using hch.2.1)
  · intro hall hnd
    exact (formatLoop_ok_iff l [] (l.map (fun e => (entryName e, entryValue e))) (by simp)).2
      ⟨hall, by simpa using hnd, by simp⟩

/-- Witness for the amended C9: a malformed entry errors, a duplicated name
errors, and a well-formed duplicate-free list returns its dictionary. -/
theorem format_env_correct_witness :
    isErr (_format_input_env_variables ["foo"]) = true ∧
    isErr (_format_input_env_variables ["a=1", "a=2"]) = true ∧
    _format_input_env_variables ["foo=bar", "bla=bloz"] =
      Except.ok [("foo", "bar"), ("bla", "bloz")] := by
  refine ⟨(format_env_correct ["foo"]).1 ⟨"foo", by decide, by decide⟩,
    (format_env_correct ["a=1", "a=2"]).2.1 (by decide), ?_⟩
  exact ((format_env_correct ["foo=bar", "bla=bloz"]).2.2 (by decide) (by decide)).trans
    (by decide)

/-! ### C10 -/

/-- C10: the invalid-name error is governed solely by the first character
of the name — the regex check is a prefix match, so the check passes
exactly when the leading character is in `[0-9a-zA-Z_]`, the invalid-name
error is only ever raised for a name whose leading character is outside the
class, a single two-part entry is accepted or rejected purely by that
leading character, and in particular `a-b=1` is accepted, mapping `a-b` to
`1`, despite the `-` later in the name. -/
theorem format_env_first_char_rule :
    (∀ (c : Char) (cs : List Char) (n : String), n.data = c :: cs →
       reMatchClassPlus n = isClassChar c) ∧
    (∀ (l : List String) (n : String),
       _format_input_env_variables l = Except.error (EnvVarError.invalidName n) →
       reMatchClassPlus n = false) ∧
    (∀ (e n v : String) (c : Char) (cs : List Char),
       varParts e = [n, v] → n.data = c :: cs →
       _format_input_env_variables [e] =
         if isClassChar c then Except.ok [(n, v)]
         else Except.error (EnvVarError.invalidName n)) ∧
    _format_input_env_variables ["a-b=1"] = Except.ok [("a-b", "1")] := by
  refine ⟨reMatchClassPlus_cons, fun l => formatLoop_invalidName l [], ?_, by decide⟩
  intro e n v c cs hv hn
  have hne : n ≠ "" := by
    intro h0
    rw [h0] at hn
    exact List.noConfusion hn
  have hre := reMatchClassPlus_cons c cs n hn
  simp only [_format_input_env_variables, formatLoop]
  rw [hv]
  cases hc : isClassChar c with
  | false =>
    rw [hc] at hre
    simp [hne, hre, formatLoop]
  | true =>
    rw [hc] at hre
    simp [hne, hre, formatLoop]

/-- Witness for C10: `-a` fails the check, while `Z@=5` — invalid later
characters but a valid leading one — is accepted. -/
theorem format_env_first_char_rule_witness :
    reMatchClassPlus "-a" = false ∧
    _format_input_env_variables ["Z@=5"] = Except.ok [("Z@", "5")] := by
  have h1 := format_env_first_char_rule.1 '-' ['a'] "-a" (by decide)
  have h3 := format_env_first_char_rule.2.2.1 "Z@=5" "Z@" "5" 'Z' ['@'] (by decide) (by decide)
  exact ⟨h1.trans (by decide), h3.trans (by decide)⟩

end Lightning
